import Mathlib

/-!
Verification of the result aggregation and filtering pipeline of the
nextclade web state layer (algorithm.reducer.ts) and of the wasm worker
boundary (nextcladeWasm.worker.ts).

The reducer is embedded as an explicit state-transition function
`step : ReducerAction → AlgorithmState → Option AlgorithmState`, where `none`
models a thrown JavaScript exception (e.g. a TypeError from dereferencing
an `undefined` array entry).  The `results` array is embedded as
`List (Option SequenceRecord)`, where `none` models a JavaScript array
hole / `undefined` entry, so that out-of-range index assignment
(`draft.results[index] = ...`) and out-of-range reads behave as in the
source.

Helper modules `sortResults`, `runFilters`, the `algorithm.state.ts`
defaults and the web-side `NextcladeResult` payload type are not part of
the visible sources; they are modelled from the specification and marked
as such in their doc comments.
-/

/-- QC overall status buckets, from the repository's type definitions. -/
inductive QcStatus where
  | good
  | mediocre
  | bad
deriving DecidableEq

/-- Modelled from the spec: condensed web-side analysis result.  The full
engine-side `AnalysisResult` type carries many more fields; the claims under
verification only inspect the fields consumed by the filter predicates
(clade, QC overall status and score, substitution positions, amino-acid
substitution labels), so the embedding keeps exactly those. -/
structure AnalysisResult where
  clade : String
  qcOverallStatus : QcStatus
  qcOverallScore : Int
  substitutions : List Nat
  aaSubstitutions : List String
deriving DecidableEq

/-- Per-gene warning, from the repository's type definitions. -/
structure GeneWarning where
  geneName : String
  message : String
deriving DecidableEq

/-- Warnings attached to a sequence: a global list plus a per-gene list,
from the repository's type definitions. -/
structure Warnings where
  global : List String
  inGenes : List GeneWarning
deriving DecidableEq

/-- Per-sequence status.  The reducer uses `queued`, `done` and `failed`;
`running` is listed by the spec's data model and is included for
completeness. -/
inductive AlgorithmSequenceStatus where
  | queued
  | running
  | done
  | failed
deriving DecidableEq

/-- Global run status.  The reducer uses `idle`, `done` and `failed`;
`running` is the spec's name for the in-progress state. -/
inductive AlgorithmGlobalStatus where
  | idle
  | running
  | done
  | failed
deriving DecidableEq

/-- One per-sequence record of the result store, with the exact fields the
reducer's `addParsedSequence` handler creates. -/
structure SequenceRecord where
  status : AlgorithmSequenceStatus
  id : Nat
  seqName : String
  result : Option AnalysisResult
  query : Option String
  queryPeptides : Option String
  warnings : Warnings
  errors : List String
deriving DecidableEq

/-- Sort key of the sort comparator.  Modelled from the spec (section 4.3):
insertion index, name, or QC overall score. -/
inductive SortCategory where
  | index
  | name
  | score
deriving DecidableEq

/-- Sort configuration: key plus direction.  Modelled from the spec. -/
structure Sorting where
  category : SortCategory
  asc : Bool
deriving DecidableEq

/-- Filter and sort configuration stored under `draft.filters` in the
reducer.  The individual field types are modelled from the spec (section
4.2): free-text name filter, mutation-position filter, amino-acid-change
filter, clade filter, four QC visibility toggles, and the sort state. -/
structure Filters where
  seqNamesFilter : Option String
  mutationsFilter : Option Nat
  aaFilter : Option String
  cladesFilter : Option String
  showGood : Bool
  showMediocre : Bool
  showBad : Bool
  showErrors : Bool
  sorting : Option Sorting
deriving DecidableEq

/-- Condensed embedding of the reducer's `params` subtree.  The claims only
require that the completion handlers leave it untouched; its nested
raw/strings/errors/final input-slot structure is flattened, and input
payload objects are condensed to strings. -/
structure AlgorithmParams where
  rawSeqData : Option String
  rawAuspiceData : Option String
  rawRootSeq : Option String
  rawQcRulesConfig : Option String
  rawGeneMap : Option String
  rawPcrPrimers : Option String
  queryName : Option String
  queryStr : Option String
  treeStrParam : Option String
  refStr : Option String
  refName : Option String
  qcConfigStr : Option String
  geneMapStr : Option String
  pcrPrimerCsvRowsStr : Option String
  errorsSeqData : List String
  errorsAuspiceData : List String
  errorsRootSeq : List String
  errorsQcRulesConfig : List String
  errorsGeneMap : List String
  errorsPcrPrimers : List String
  genomeSize : Option Nat
  geneMapFinal : Option String
  seqData : Option String
  datasetCurrent : Option String
  urlParams : Option String
  defaultDatasetName : Option String
  defaultDatasetNameFriendly : Option String
  datasets : List String
deriving DecidableEq

/-- The state owned by the algorithm reducer, with the fields the visible
handlers read and write. -/
structure AlgorithmState where
  params : AlgorithmParams
  status : AlgorithmGlobalStatus
  isDirty : Bool
  results : List (Option SequenceRecord)
  resultsFiltered : List SequenceRecord
  filters : Filters
  errors : List String
  treeStr : Option String
deriving DecidableEq

/-- Outcome part of a completion payload.  Modelled from the spec (sections
4.1 and 6): exactly one of the analysis result and the error is populated,
so the payload is a sum of a success part (analysis result, aligned query,
query peptides) and a failure part (error descriptor). -/
inductive NextcladeOutcome where
  | success (analysisResult : AnalysisResult) (query : String) (queryPeptides : String)
  | failure (error : String)
deriving DecidableEq

/-- Completion payload of the `addNextcladeResult` action.  Modelled from
the spec: the web-side `NextcladeResult` type is not among the visible
sources; per the spec it carries the sequence index, the name, warnings,
and exactly one of a success or a failure outcome. -/
structure NextcladeResultPayload where
  index : Nat
  seqName : String
  warnings : Warnings
  outcome : NextcladeOutcome
deriving DecidableEq

/-- The `analysisResult` field of the payload as the reducer reads it:
present on success, absent (JS `undefined`) on failure. -/
def NextcladeResultPayload.analysisResultField (p : NextcladeResultPayload) : Option AnalysisResult :=
  match p.outcome with
  | .success r _ _ => some r
  | .failure _ => none

/-- The `query` field of the payload as the reducer reads it. -/
def NextcladeResultPayload.queryField (p : NextcladeResultPayload) : Option String :=
  match p.outcome with
  | .success _ q _ => some q
  | .failure _ => none

/-- The `queryPeptides` field of the payload as the reducer reads it. -/
def NextcladeResultPayload.queryPeptidesField (p : NextcladeResultPayload) : Option String :=
  match p.outcome with
  | .success _ _ qp => some qp
  | .failure _ => none

/-- The `hasError` flag of the payload as the reducer reads it. -/
def NextcladeResultPayload.hasError (p : NextcladeResultPayload) : Bool :=
  match p.outcome with
  | .success _ _ _ => false
  | .failure _ => true

/-- Lexicographic comparison of character lists, used by the spec-modelled
name sort key. -/
def charListLe : List Char → List Char → Bool
  | [], _ => true
  | _ :: _, [] => false
  | a :: as, b :: bs => if a = b then charListLe as bs else decide (a < b)

/-- Comparison of optional QC scores: a record without a score sorts after
every record with one.  Modelled from the spec. -/
def scoreLe : Option Int → Option Int → Bool
  | none, none => true
  | none, some _ => false
  | some _, none => true
  | some a, some b => decide (a ≤ b)

/-- Key comparison for one sort category in ascending direction.  Modelled
from the spec (section 4.3). -/
def keyLe (category : SortCategory) (x y : SequenceRecord) : Bool :=
  match category with
  | .index => decide (x.id ≤ y.id)
  | .name => charListLe x.seqName.toList y.seqName.toList
  | .score => scoreLe (x.result.map AnalysisResult.qcOverallScore) (y.result.map AnalysisResult.qcOverallScore)

/-- Comparison of result-store entries under a sort configuration.  Array
holes sort last; direction flips the key comparison.  Modelled from the
spec. -/
def recordLe (sorting : Sorting) : Option SequenceRecord → Option SequenceRecord → Bool
  | none, none => true
  | none, some _ => false
  | some _, none => true
  | some x, some y => if sorting.asc then keyLe sorting.category x y else keyLe sorting.category y x

/-- Insertion step of the insertion sort used by the spec-modelled sort
comparator. -/
def insertLe {α : Type} (le : α → α → Bool) (x : α) : List α → List α
  | [] => [x]
  | y :: ys => if le x y then x :: y :: ys else y :: insertLe le x ys

/-- Insertion sort by a boolean comparison. -/
def insortLe {α : Type} (le : α → α → Bool) (l : List α) : List α :=
  l.foldr (insertLe le) []

/-- Modelled from the spec: `sortResults` (src/helpers/sortResults is not
among the visible sources) totally orders the record collection by the
selected key and direction (section 4.3). -/
def sortResults (results : List (Option SequenceRecord)) (sorting : Sorting) : List (Option SequenceRecord) :=
  insortLe (recordLe sorting) results

/-- Boolean infix test on character lists, used by the spec-modelled name
filter. -/
def charListHasInfix (needle : List Char) : List Char → Bool
  | [] => needle.isEmpty
  | c :: rest => needle.isPrefixOf (c :: rest) || charListHasInfix needle rest

/-- Name predicate: substring match against the sequence name; an empty or
absent filter matches all.  Modelled from the spec (section 4.2). -/
def nameMatches (filter : Option String) (rec : SequenceRecord) : Bool :=
  match filter with
  | none => true
  | some s => s.isEmpty || charListHasInfix s.toList rec.seqName.toList

/-- QC-bucket visibility gate: failed records are gated by the errors
toggle, completed records by the toggle of their QC bucket, and in-flight
records are always visible.  Modelled from the spec (section 4.2). -/
def qcBucketVisible (f : Filters) (rec : SequenceRecord) : Bool :=
  match rec.status with
  | .failed => f.showErrors
  | .done =>
    match rec.result with
    | some r =>
      match r.qcOverallStatus with
      | .good => f.showGood
      | .mediocre => f.showMediocre
      | .bad => f.showBad
    | none => true
  | _ => true

/-- Content predicates (name, mutation position, amino-acid change, clade),
combined with logical AND.  A record without a result (still in flight) is
never excluded by content predicates.  Modelled from the spec (section
4.2). -/
def contentPass (f : Filters) (rec : SequenceRecord) : Bool :=
  match rec.result with
  | none => true
  | some r =>
    nameMatches f.seqNamesFilter rec &&
    (match f.mutationsFilter with
     | none => true
     | some pos => r.substitutions.contains pos) &&
    (match f.aaFilter with
     | none => true
     | some aa => r.aaSubstitutions.contains aa) &&
    (match f.cladesFilter with
     | none => true
     | some c => decide (r.clade = c))

/-- A record is visible iff its QC bucket toggle is on and it passes every
content predicate.  Modelled from the spec (section 4.2). -/
def recordVisible (f : Filters) (rec : SequenceRecord) : Bool :=
  qcBucketVisible f rec && contentPass f rec

/-- Modelled from the spec: `runFilters` (src/filtering/runFilters is not
among the visible sources) derives the visible results by filtering the
record collection with the predicate set; holes are dropped.  The sort
stage is applied by the reducer itself via `sortResults` on the sort
trigger action. -/
def runFilters (results : List (Option SequenceRecord)) (f : Filters) : List SequenceRecord :=
  (results.filterMap id).filter (recordVisible f)

/-- JavaScript array index assignment `a[i] = x`: overwrites in range,
appends at the length, and pads with holes beyond it. -/
def writeAt (l : List (Option SequenceRecord)) (i : Nat) (x : Option SequenceRecord) : List (Option SequenceRecord) :=
  if i < l.length then l.set i x
  else l ++ List.replicate (i - l.length) none ++ [x]

/-- The fresh queued record created by the `addParsedSequence` handler
(algorithm.reducer.ts lines 130-142). -/
def freshRecord (index : Nat) (seqName : String) : SequenceRecord :=
  { status := .queued
    id := index
    seqName := seqName
    result := none
    query := none
    queryPeptides := none
    warnings := { global := [], inGenes := [] }
    errors := [] }

/-- Field updates performed on the record at the payload's index by the
`addNextcladeResult` handler (algorithm.reducer.ts lines 144-156): the
result, query, peptides and warnings fields are assigned from the payload
unconditionally, then status and errors are set by the error branch. -/
def completeRecord (rec : SequenceRecord) (p : NextcladeResultPayload) : SequenceRecord :=
  let rec1 : SequenceRecord :=
    { rec with
      result := p.analysisResultField
      query := p.queryField
      queryPeptides := p.queryPeptidesField
      warnings := p.warnings }
  match p.outcome with
  | .failure e => { rec1 with status := .failed, errors := [e] }
  | .success _ _ _ => { rec1 with status := .done, errors := [] }

/-- The `removeFastaImpl` helper of the reducer. -/
def removeFastaImpl (p : AlgorithmParams) : AlgorithmParams :=
  { p with rawSeqData := none, queryName := none, queryStr := none, errorsSeqData := [], seqData := none }

/-- The `removeTreeImpl` helper of the reducer. -/
def removeTreeImpl (p : AlgorithmParams) : AlgorithmParams :=
  { p with rawAuspiceData := none, treeStrParam := none, errorsAuspiceData := [] }

/-- The `removeRootSeqImpl` helper of the reducer. -/
def removeRootSeqImpl (p : AlgorithmParams) : AlgorithmParams :=
  { p with rawRootSeq := none, refStr := none, genomeSize := none, errorsRootSeq := [] }

/-- The `removeQcSettingsImpl` helper of the reducer. -/
def removeQcSettingsImpl (p : AlgorithmParams) : AlgorithmParams :=
  { p with rawQcRulesConfig := none, qcConfigStr := none, errorsQcRulesConfig := [] }

/-- The `removeGeneMapImpl` helper of the reducer. -/
def removeGeneMapImpl (p : AlgorithmParams) : AlgorithmParams :=
  { p with rawGeneMap := none, geneMapStr := none, geneMapFinal := none, errorsGeneMap := [] }

/-- The `removePcrPrimersImpl` helper of the reducer. -/
def removePcrPrimersImpl (p : AlgorithmParams) : AlgorithmParams :=
  { p with rawPcrPrimers := none, pcrPrimerCsvRowsStr := none, errorsPcrPrimers := [] }

/-- The `removeAll` helper of the reducer. -/
def removeAllParams (p : AlgorithmParams) : AlgorithmParams :=
  removePcrPrimersImpl (removeGeneMapImpl (removeQcSettingsImpl (removeRootSeqImpl (removeTreeImpl (removeFastaImpl p)))))

/-- Actions handled by the algorithm reducer.  Payloads that the claim set
never inspects (input objects, datasets, URL parameters) are condensed to
strings. -/
inductive ReducerAction where
  | setDatasets (defaultDatasetName : Option String) (defaultDatasetNameFriendly : Option String) (datasets : List String)
  | setCurrentDataset (dataset : Option String)
  | setInputUrlParams (urlParams : Option String)
  | setGenomeSize (genomeSize : Nat)
  | setGeneMapObject (geneMap : String)
  | addParsedSequence (index : Nat) (seqName : String)
  | addNextcladeResult (p : NextcladeResultPayload)
  | resultsSortTrigger (sorting : Sorting)
  | setSeqNamesFilter (v : Option String)
  | setMutationsFilter (v : Option Nat)
  | setAAFilter (v : Option String)
  | setCladesFilter (v : Option String)
  | setShowGood (v : Bool)
  | setShowMediocre (v : Bool)
  | setShowBad (v : Bool)
  | setShowErrors (v : Bool)
  | setFastaStarted (input : String)
  | setFastaDone (queryStr : String) (queryName : String)
  | setFastaFailed (error : String)
  | setTreeStarted (input : String)
  | setTreeDone (treeStr : String)
  | setTreeFailed (error : String)
  | setRootSeqStarted (input : String)
  | setRootSeqDone (refStr : String) (refName : String)
  | setRootSeqFailed (error : String)
  | setQcSettingsStarted (input : String)
  | setQcSettingsDone (qcConfigStr : String)
  | setQcSettingsFailed (error : String)
  | setGeneMapStarted (input : String)
  | setGeneMapDone (geneMapStr : String)
  | setGeneMapFailed (error : String)
  | setPcrPrimersStarted (input : String)
  | setPcrPrimersDone (pcrPrimerCsvRowsStr : String)
  | setPcrPrimersFailed (error : String)
  | removeFasta
  | removeTree
  | removeRootSeq
  | removeQcSettings
  | removeGeneMap
  | removePcrPrimers
  | setIsDirty (isDirty : Bool)
  | algorithmRunStarted
  | setAlgorithmGlobalStatus (status : AlgorithmGlobalStatus)
  | algorithmRunTrigger
  | algorithmRunDone
  | algorithmRunFailed (errorMessage : String)
  | setTreeResult (treeStr : String)
  | errorDismiss

/-- Modelled from the spec: the initial reducer state
(`algorithmDefaultState` lives in algorithm.state.ts, which is not among
the visible sources): empty inputs, idle status, dirty inputs, empty
collections, match-all filters with all visibility toggles on. -/
def algorithmDefaultState : AlgorithmState :=
  { params :=
      { rawSeqData := none, rawAuspiceData := none, rawRootSeq := none
        rawQcRulesConfig := none, rawGeneMap := none, rawPcrPrimers := none
        queryName := none, queryStr := none, treeStrParam := none
        refStr := none, refName := none, qcConfigStr := none
        geneMapStr := none, pcrPrimerCsvRowsStr := none
        errorsSeqData := [], errorsAuspiceData := [], errorsRootSeq := []
        errorsQcRulesConfig := [], errorsGeneMap := [], errorsPcrPrimers := []
        genomeSize := none, geneMapFinal := none, seqData := none
        datasetCurrent := none, urlParams := none
        defaultDatasetName := none, defaultDatasetNameFriendly := none
        datasets := [] }
    status := .idle
    isDirty := true
    results := []
    resultsFiltered := []
    filters :=
      { seqNamesFilter := none, mutationsFilter := none, aaFilter := none
        cladesFilter := none, showGood := true, showMediocre := true
        showBad := true, showErrors := true, sorting := none }
    errors := []
    treeStr := none }

/-- The algorithm reducer as an explicit transition function.  A `none`
result models a thrown JavaScript exception: the only handler that can
throw on well-typed input is `addNextcladeResult`, which dereferences
`draft.results[index]` without a bounds or existence check
(algorithm.reducer.ts lines 144-148). -/
def step (a : ReducerAction) (s : AlgorithmState) : Option AlgorithmState :=
  match a with
  | .setDatasets n f d =>
    some { s with params := { s.params with defaultDatasetName := n, defaultDatasetNameFriendly := f, datasets := d } }
  | .setCurrentDataset d =>
    some { s with params := { removeAllParams s.params with datasetCurrent := d } }
  | .setInputUrlParams u =>
    some { s with params := { s.params with urlParams := u } }
  | .setGenomeSize g =>
    some { s with params := { s.params with genomeSize := some g } }
  | .setGeneMapObject g =>
    some { s with params := { s.params with geneMapFinal := some g } }
  | .addParsedSequence index seqName =>
    let results := writeAt s.results index (some (freshRecord index seqName))
    some { s with results := results, resultsFiltered := runFilters results s.filters }
  | .addNextcladeResult p =>
    match s.results.getD p.index none with
    | none => none
    | some rec =>
      let results := s.results.set p.index (some (completeRecord rec p))
      some { s with results := results, resultsFiltered := runFilters results s.filters }
  | .resultsSortTrigger sorting =>
    let filters := { s.filters with sorting := some sorting }
    let results := sortResults s.results sorting
    some { s with filters := filters, results := results, resultsFiltered := runFilters results filters }
  | .setSeqNamesFilter v =>
    let filters := { s.filters with seqNamesFilter := v }
    some { s with filters := filters, resultsFiltered := runFilters s.results filters }
  | .setMutationsFilter v =>
    let filters := { s.filters with mutationsFilter := v }
    some { s with filters := filters, resultsFiltered := runFilters s.results filters }
  | .setAAFilter v =>
    let filters := { s.filters with aaFilter := v }
    some { s with filters := filters, resultsFiltered := runFilters s.results filters }
  | .setCladesFilter v =>
    let filters := { s.filters with cladesFilter := v }
    some { s with filters := filters, resultsFiltered := runFilters s.results filters }
  | .setShowGood v =>
    let filters := { s.filters with showGood := v }
    some { s with filters := filters, resultsFiltered := runFilters s.results filters }
  | .setShowMediocre v =>
    let filters := { s.filters with showMediocre := v }
    some { s with filters := filters, resultsFiltered := runFilters s.results filters }
  | .setShowBad v =>
    let filters := { s.filters with showBad := v }
    some { s with filters := filters, resultsFiltered := runFilters s.results filters }
  | .setShowErrors v =>
    let filters := { s.filters with showErrors := v }
    some { s with filters := filters, resultsFiltered := runFilters s.results filters }
  | .setFastaStarted input =>
    some { s with params := { removeFastaImpl s.params with rawSeqData := some input, errorsSeqData := [] } }
  | .setFastaDone queryStr queryName =>
    some { s with params := { s.params with queryStr := some queryStr, queryName := some queryName, errorsSeqData := [] } }
  | .setFastaFailed e =>
    some { s with params := { removeFastaImpl s.params with errorsSeqData := [e] } }
  | .setTreeStarted input =>
    some { s with params := { removeTreeImpl s.params with rawAuspiceData := some input, errorsAuspiceData := [] } }
  | .setTreeDone treeStr =>
    some { s with params := { s.params with treeStrParam := some treeStr, errorsAuspiceData := [] } }
  | .setTreeFailed e =>
    some { s with params := { removeTreeImpl s.params with errorsAuspiceData := [e] } }
  | .setRootSeqStarted input =>
    some { s with params := { removeRootSeqImpl s.params with rawRootSeq := some input, errorsRootSeq := [] } }
  | .setRootSeqDone refStr refName =>
    some { s with params := { s.params with refStr := some refStr, refName := some refName, genomeSize := some refStr.length, errorsRootSeq := [] } }
  | .setRootSeqFailed e =>
    some { s with params := { removeRootSeqImpl s.params with errorsRootSeq := [e] } }
  | .setQcSettingsStarted input =>
    some { s with params := { removeQcSettingsImpl s.params with rawQcRulesConfig := some input, errorsQcRulesConfig := [] } }
  | .setQcSettingsDone qcConfigStr =>
    some { s with params := { s.params with qcConfigStr := some qcConfigStr, errorsQcRulesConfig := [] } }
  | .setQcSettingsFailed e =>
    some { s with params := { removeQcSettingsImpl s.params with errorsQcRulesConfig := [e] } }
  | .setGeneMapStarted input =>
    some { s with params := { removeGeneMapImpl s.params with rawGeneMap := some input, errorsGeneMap := [] } }
  | .setGeneMapDone geneMapStr =>
    some { s with params := { s.params with geneMapStr := some geneMapStr, geneMapFinal := some geneMapStr, errorsGeneMap := [] } }
  | .setGeneMapFailed e =>
    some { s with params := { removeGeneMapImpl s.params with errorsGeneMap := [e] } }
  | .setPcrPrimersStarted input =>
    some { s with params := { removePcrPrimersImpl s.params with rawPcrPrimers := some input, errorsPcrPrimers := [] } }
  | .setPcrPrimersDone v =>
    some { s with params := { s.params with pcrPrimerCsvRowsStr := some v, errorsPcrPrimers := [] } }
  | .setPcrPrimersFailed e =>
    some { s with params := { removePcrPrimersImpl s.params with errorsPcrPrimers := [e] } }
  | .removeFasta => some { s with params := removeFastaImpl s.params }
  | .removeTree => some { s with params := removeTreeImpl s.params }
  | .removeRootSeq => some { s with params := removeRootSeqImpl s.params }
  | .removeQcSettings => some { s with params := removeQcSettingsImpl s.params }
  | .removeGeneMap => some { s with params := removeGeneMapImpl s.params }
  | .removePcrPrimers => some { s with params := removePcrPrimersImpl s.params }
  | .setIsDirty b => some { s with status := .idle, isDirty := b }
  | .algorithmRunStarted =>
    some { s with status := .idle, isDirty := false, results := [], resultsFiltered := [], treeStr := none, errors := [] }
  | .setAlgorithmGlobalStatus st => some { s with status := st }
  | .algorithmRunTrigger => some { s with status := .idle, errors := [] }
  | .algorithmRunDone => some { s with status := .done, errors := [] }
  | .algorithmRunFailed msg => some { s with status := .failed, errors := [msg] }
  | .setTreeResult t => some { s with treeStr := some t }
  | .errorDismiss => some { s with errors := [] }

/-- Sequential application of a list of actions; propagates the exception
of the first failing step. -/
def stepFold (acts : List ReducerAction) (s : AlgorithmState) : Option AlgorithmState :=
  match acts with
  | [] => some s
  | a :: rest => (step a s).bind (fun s1 => stepFold rest s1)

/-- A state is reachable when some action sequence leads to it from the
default state without throwing. -/
def ReachableState (s : AlgorithmState) : Prop :=
  ∃ acts : List ReducerAction, stepFold acts algorithmDefaultState = some s

theorem getD_set_of_ne {α : Type} {i j : Nat} (h : i ≠ j) (l : List α) (x d : α) :
    (l.set i x).getD j d = l.getD j d := by
  simp [List.getD_eq_getElem?_getD, List.getElem?_set_ne h]

theorem getD_set_self {α : Type} {i : Nat} {l : List α} (h : i < l.length) (x d : α) :
    (l.set i x).getD i d = x := by
  simp [List.getD_eq_getElem?_getD, List.getElem?_set_self h]

theorem mem_insertLe {α : Type} {le : α → α → Bool} {x a : α} {l : List α} :
    a ∈ insertLe le x l ↔ a = x ∨ a ∈ l := by
  induction l with
  | nil => simp [insertLe]
  | cons y ys ih =>
    by_cases h : le x y = true <;> simp [insertLe, h, ih] <;> tauto

theorem mem_insortLe {α : Type} {le : α → α → Bool} {a : α} {l : List α}
    (h : a ∈ insortLe le l) : a ∈ l := by
  induction l with
  | nil => simpa [insortLe] using h
  | cons y ys ih =>
    have h2 : a ∈ insertLe le y (insortLe le ys) := h
    rcases mem_insertLe.mp h2 with h3 | h3
    · simp [h3]
    · simp [ih h3]

theorem mem_writeAt {l : List (Option SequenceRecord)} {i : Nat}
    {x a : Option SequenceRecord} (h : a ∈ writeAt l i x) :
    a ∈ l ∨ a = x ∨ a = none := by
  unfold writeAt at h
  split at h
  · rcases List.mem_or_eq_of_mem_set h with h2 | h2 <;> tauto
  · simp only [List.mem_append, List.mem_singleton] at h
    rcases h with (h2 | h2) | h2
    · tauto
    · exact Or.inr (Or.inr (List.eq_of_mem_replicate h2))
    · tauto

/-- A sample analysis result used by concrete scenarios. -/
def sampleResult : AnalysisResult :=
  { clade := "A", qcOverallStatus := .good, qcOverallScore := 0
    substitutions := [], aaSubstitutions := [] }

/-- A sample successful completion payload for index 0. -/
def samplePayload : NextcladeResultPayload :=
  { index := 0, seqName := "s1", warnings := { global := [], inGenes := [] }
    outcome := .success sampleResult "q" "qp" }

/-- The failing input of claim C1: reset, parse two sequences, sort the
results array by index descending (reordering it in place to
[record id 1, record id 0]), then complete index 0 with a success. -/
def c1Acts : List ReducerAction :=
  [.algorithmRunStarted, .addParsedSequence 0 "s1", .addParsedSequence 1 "s2",
   .resultsSortTrigger { category := .index, asc := false },
   .addNextcladeResult samplePayload]

/-- C1: evaluation of the reducer at the failing input.  After
`resultsSortTrigger` reorders the results array to [id 1, id 0], applying
`addNextcladeResult` with index 0 stores the outcome in the record whose id
is 1 (array position 0) and leaves the record whose id is 0 queued with no
result — refuting the claim that the completion with index i lands in the
record whose id equals i regardless of any sorting applied beforehand. -/
theorem C1_completion_after_sort_hits_wrong_record :
    ((stepFold c1Acts algorithmDefaultState).map
      (fun s => s.results.map (fun o => o.map (fun r => (r.id, r.status, r.result.isSome))))) =
    some [some (1, AlgorithmSequenceStatus.done, true),
          some (0, AlgorithmSequenceStatus.queued, false)] := by
  decide

/-- A prior state with a completed run: status done, one record, a global
error, dirty inputs. -/
def c5Prior : AlgorithmState :=
  { algorithmDefaultState with
    status := .done
    isDirty := true
    results := [some (freshRecord 0 "a")]
    resultsFiltered := [freshRecord 0 "a"]
    errors := ["boom"] }

/-- C5 counterexample: starting a run from a state with status done leaves
the status at idle, not running — the started handler sets
`AlgorithmGlobalStatus.idle`, and the running status is only set later by
a separate `setAlgorithmGlobalStatus` dispatch. -/
theorem C5_counterexample_started_sets_idle :
    (step .algorithmRunStarted c5Prior).map (fun s => s.status) =
      some AlgorithmGlobalStatus.idle ∧
    AlgorithmGlobalStatus.idle ≠ AlgorithmGlobalStatus.running := by
  decide

/-- C5 (amended): for every prior state with status idle, done or failed,
the run-start transition sets the status to idle (the running status is set
separately via `setAlgorithmGlobalStatus`), clears the prior results
collection, the derived filtered results and the global error list, and
clears the dirty flag. -/
theorem C5_started_clears_state (s : AlgorithmState)
    (h : s.status = .idle ∨ s.status = .done ∨ s.status = .failed) :
    ∃ s', step .algorithmRunStarted s = some s' ∧ s'.status = .idle ∧
      s'.results = [] ∧ s'.resultsFiltered = [] ∧ s'.errors = [] ∧
      s'.isDirty = false := by
  exact ⟨_, rfl, rfl, rfl, rfl, rfl, rfl⟩

/-- C5 witness: the amended run-start property instantiated at the concrete
completed-run state. -/
theorem C5_started_clears_state_witness :
    ∃ s', step .algorithmRunStarted c5Prior = some s' ∧ s'.status = .idle ∧
      s'.results = [] ∧ s'.resultsFiltered = [] ∧ s'.errors = [] ∧
      s'.isDirty = false :=
  C5_started_clears_state c5Prior (Or.inr (Or.inl rfl))

/-- Modelled from the spec (sections 5 and 9): completion callbacks cross
the worker boundary as messages tagged with a run-generation identifier;
this layer (the saga/worker plumbing) is not among the visible sources. -/
structure TaggedCompletion where
  runId : Nat
  payload : NextcladeResultPayload
deriving DecidableEq

/-- Modelled from the spec: the consumer applies a completion only when its
tag matches the current run generation and ignores messages of superseded
runs (stale-run guard, spec sections 5 and 9). -/
def applyTaggedCompletion (currentRunId : Nat) (m : TaggedCompletion)
    (s : AlgorithmState) : Option AlgorithmState :=
  if m.runId = currentRunId then step (.addNextcladeResult m.payload) s
  else some s

/-- C7: a completion callback belonging to a superseded run — one tagged
with a run generation older than the current one — never mutates the
current record store: applying it leaves the state unchanged. -/
theorem C7_stale_completion_is_ignored (currentRunId : Nat)
    (m : TaggedCompletion) (s : AlgorithmState) (h : m.runId < currentRunId) :
    applyTaggedCompletion currentRunId m s = some s := by
  simp [applyTaggedCompletion, Nat.ne_of_lt h]

/-- C7 witness: a completion of run generation 1 arriving while generation
2 is current leaves the default state unchanged. -/
theorem C7_stale_completion_is_ignored_witness :
    applyTaggedCompletion 2 { runId := 1, payload := samplePayload }
      algorithmDefaultState = some algorithmDefaultState :=
  C7_stale_completion_is_ignored 2 _ algorithmDefaultState (by decide)

/-- One record of the fasta stream handed to the worker's `analyze`
(nextcladeWasm.worker.ts). -/
structure FastaRecord where
  index : Nat
  seqName : String
  seq : String
deriving DecidableEq

/-- The raw success object produced by the wasm module: aligned query plus
the peptides and analysis result as JSON strings (the worker hands the
parsed values on; the JSON parsing itself is external and the embedding
keeps the raw strings). -/
structure AnalysisOutputPojo where
  query : String
  query_peptides : String
  analysis_result : String
deriving DecidableEq

/-- The object returned by `output.to_js()` in the worker: an optional
result and an optional error, both owned by the external wasm module. -/
structure WasmAnalysisOutput where
  result : Option AnalysisOutputPojo
  error : Option String
deriving DecidableEq

/-- Errors thrown by the worker: the module-not-initialized guard and the
distinguished internal error for an engine output with neither result nor
error (classes `ErrorModuleNotInitialized` and
`ErrorBothResultsAndErrorAreNull`). -/
inductive WorkerError where
  | errorModuleNotInitialized (fnName : String)
  | errorBothResultsAndErrorAreNull
deriving DecidableEq

/-- The outcome returned by the worker's `analyze`: index and name of the
input record together with exactly one of the result and the error (the
branch not taken leaves its field absent, as in the source's object
literals). -/
structure NextcladeWorkerResult where
  index : Nat
  seqName : String
  result : Option AnalysisOutputPojo
  error : Option String
deriving DecidableEq

/-- The worker's `analyze` (nextcladeWasm.worker.ts lines 85-131): after
the module-initialization guard, it returns the result branch when the
engine output has a result, the error branch when it has only an error,
and throws `ErrorBothResultsAndErrorAreNull` when it has neither.  The
engine output is a parameter because the wasm module is external. -/
def analyze (moduleInitialized : Bool) (output : WasmAnalysisOutput)
    (record : FastaRecord) : Except WorkerError NextcladeWorkerResult :=
  if moduleInitialized then
    match output.result with
    | some r =>
      .ok { index := record.index, seqName := record.seqName
            result := some r, error := none }
    | none =>
      match output.error with
      | some e =>
        .ok { index := record.index, seqName := record.seqName
              result := none, error := some e }
      | none => .error .errorBothResultsAndErrorAreNull
  else .error (.errorModuleNotInitialized "analyze")

/-- C8: every outcome `analyze` returns has exactly one of result and error
populated and carries the index and name of the input record unchanged;
and when the engine output contains neither a result nor an error, analyze
raises the distinguished internal error `ErrorBothResultsAndErrorAreNull`
instead of returning a defaulted outcome. -/
theorem C8_analyze_outcome_exclusive :
    (∀ (init : Bool) (output : WasmAnalysisOutput) (record : FastaRecord)
        (res : NextcladeWorkerResult),
      analyze init output record = .ok res →
        ((res.result.isSome ∧ res.error = none) ∨
         (res.result = none ∧ res.error.isSome)) ∧
        res.index = record.index ∧ res.seqName = record.seqName) ∧
    (∀ (output : WasmAnalysisOutput) (record : FastaRecord),
      output.result = none → output.error = none →
        analyze true output record = .error .errorBothResultsAndErrorAreNull) := by
  constructor
  · intro init output record res h
    unfold analyze at h
    split at h
    · cases hr : output.result with
      | some r => rw [hr] at h; cases h; simp
      | none =>
        rw [hr] at h
        cases he : output.error with
        | some e => rw [he] at h; cases h; simp
        | none => rw [he] at h; cases h
    · cases h
  · intro output record h1 h2
    unfold analyze
    rw [h1, h2]
    simp

/-- C8 witness: the exclusivity part instantiated at a concrete success
output, and the escalation part at a concrete empty engine output. -/
theorem C8_analyze_outcome_exclusive_witness :
    (((NextcladeWorkerResult.result
        { index := 7, seqName := "n", result := some { query := "q", query_peptides := "[]", analysis_result := "{}" }, error := none }).isSome ∧
      (NextcladeWorkerResult.error
        { index := 7, seqName := "n", result := some { query := "q", query_peptides := "[]", analysis_result := "{}" }, error := none }) = none) ∨
     ((NextcladeWorkerResult.result
        { index := 7, seqName := "n", result := some { query := "q", query_peptides := "[]", analysis_result := "{}" }, error := none }) = none ∧
      (NextcladeWorkerResult.error
        { index := 7, seqName := "n", result := some { query := "q", query_peptides := "[]", analysis_result := "{}" }, error := none }).isSome)) ∧
    (analyze true { result := none, error := none } { index := 3, seqName := "m", seq := "ACGT" } =
      .error .errorBothResultsAndErrorAreNull) := by
  constructor
  · exact (C8_analyze_outcome_exclusive.1 true
      { result := some { query := "q", query_peptides := "[]", analysis_result := "{}" }, error := none }
      { index := 7, seqName := "n", seq := "ACGT" } _ rfl).1
  · exact C8_analyze_outcome_exclusive.2
      { result := none, error := none }
      { index := 3, seqName := "m", seq := "ACGT" } rfl rfl

/-- An out-of-range completion payload: index 0 against an empty results
collection. -/
def c10Payload : NextcladeResultPayload :=
  { index := 0, seqName := "x", warnings := { global := [], inGenes := [] }
    outcome := .failure "e" }

/-- C10: the `addNextcladeResult` handler succeeds exactly when its index
refers to a record already present in the collection — there is no bounds
or existence check, so for an index with no initialized record the handler
dereferences an undefined entry and throws (modelled by `none`) rather
than logging and ignoring the completion; the concrete conjunct exhibits
the reachable error branch at index 0 of the empty default store. -/
theorem C10_completion_requires_existing_record :
    (∀ (p : NextcladeResultPayload) (s : AlgorithmState),
      step (.addNextcladeResult p) s = none ↔
        s.results.getD p.index none = none) ∧
    step (.addNextcladeResult c10Payload) algorithmDefaultState = none := by
  constructor
  · intro p s
    cases h : s.results[p.index]?.getD none <;>
      simp [step, List.getD_eq_getElem?_getD, h]
  · decide

/-- C9: applying `addNextcladeResult` with index i leaves every record at a
position other than i unchanged, and leaves the filter configuration, the
input parameters, the run status, the dirty flag, the global error list
and the output tree unchanged — only the record at i and the derived
filtered view change. -/
theorem C9_completion_frame (p : NextcladeResultPayload) (s s' : AlgorithmState)
    (h : step (.addNextcladeResult p) s = some s') :
    (∀ j, j ≠ p.index → s'.results.getD j none = s.results.getD j none) ∧
    s'.filters = s.filters ∧ s'.params = s.params ∧ s'.status = s.status ∧
    s'.isDirty = s.isDirty ∧ s'.errors = s.errors ∧ s'.treeStr = s.treeStr := by
  cases hg : s.results[p.index]?.getD none with
  | none => simp [step, List.getD_eq_getElem?_getD, hg] at h
  | some rec =>
    simp only [step, List.getD_eq_getElem?_getD, hg, Option.some.injEq] at h
    subst h
    refine ⟨?_, rfl, rfl, rfl, rfl, rfl, rfl⟩
    intro j hj
    exact getD_set_of_ne (Ne.symm hj) _ _ _

/-- A one-record state used to instantiate the frame and view theorems. -/
def c9Pre : AlgorithmState :=
  { algorithmDefaultState with results := [some (freshRecord 0 "s1"), some (freshRecord 1 "s2")] }

/-- The state after completing index 0 of the two-record store. -/
def c9Post : AlgorithmState :=
  (step (.addNextcladeResult samplePayload) c9Pre).getD algorithmDefaultState

/-- C9 witness: the frame property instantiated at the concrete two-record
store with the completion of index 0. -/
theorem C9_completion_frame_witness :
    (∀ j, j ≠ samplePayload.index →
      c9Post.results.getD j none = c9Pre.results.getD j none) ∧
    c9Post.filters = c9Pre.filters ∧ c9Post.params = c9Pre.params ∧
    c9Post.status = c9Pre.status ∧ c9Post.isDirty = c9Pre.isDirty ∧
    c9Post.errors = c9Pre.errors ∧ c9Post.treeStr = c9Pre.treeStr :=
  C9_completion_frame samplePayload c9Pre c9Post rfl

/-- The actions after which the spec requires the derived view to be
recomputed: every action that mutates the record collection, the filter
configuration or the sort configuration. -/
def refreshesView : ReducerAction → Bool
  | .addParsedSequence _ _ => true
  | .addNextcladeResult _ => true
  | .resultsSortTrigger _ => true
  | .setSeqNamesFilter _ => true
  | .setMutationsFilter _ => true
  | .setAAFilter _ => true
  | .setCladesFilter _ => true
  | .setShowGood _ => true
  | .setShowMediocre _ => true
  | .setShowBad _ => true
  | .setShowErrors _ => true
  | _ => false

/-- C6: after every action that mutates the record collection, the filter
configuration or the sort configuration, the stored derived view
`resultsFiltered` equals the recomputation of `runFilters` on the updated
records and filters — the derived view is never stale. -/
theorem C6_view_never_stale (a : ReducerAction) (s s' : AlgorithmState)
    (hm : refreshesView a = true) (h : step a s = some s') :
    s'.resultsFiltered = runFilters s'.results s'.filters := by
  cases a
  case addNextcladeResult p =>
    cases hg : s.results[p.index]?.getD none with
    | none => simp [step, List.getD_eq_getElem?_getD, hg] at h
    | some rec =>
      simp only [step, List.getD_eq_getElem?_getD, hg, Option.some.injEq] at h
      subst h
      rfl
  all_goals first
    | (simp only [step, Option.some.injEq] at h; subst h; rfl)
    | simp [refreshesView] at hm

/-- The state after switching the good-bucket toggle off on a state holding
one queued record. -/
def c6Post : AlgorithmState :=
  (step (.setShowGood false) c9Pre).getD algorithmDefaultState

/-- C6 witness: the view-consistency property instantiated at the concrete
toggle change on the two-record store. -/
theorem C6_view_never_stale_witness :
    c6Post.resultsFiltered = runFilters c6Post.results c6Post.filters :=
  C6_view_never_stale (.setShowGood false) c9Pre c6Post rfl rfl

/-- The per-record invariant of the spec's data model: the result is
populated iff the status is done, and the error list is non-empty iff the
status is failed. -/
def RecordInvariant (rec : SequenceRecord) : Prop :=
  (rec.result.isSome ↔ rec.status = .done) ∧
  (rec.errors ≠ [] ↔ rec.status = .failed)

/-- All records present in the store satisfy the per-record invariant. -/
def RecordsOk (s : AlgorithmState) : Prop :=
  ∀ rec : SequenceRecord, some rec ∈ s.results → RecordInvariant rec

theorem recordInvariant_fresh (i : Nat) (n : String) :
    RecordInvariant (freshRecord i n) := by
  constructor <;> simp [freshRecord]

theorem recordInvariant_complete (rec : SequenceRecord)
    (p : NextcladeResultPayload) : RecordInvariant (completeRecord rec p) := by
  cases hp : p.outcome with
  | success r q qp =>
    constructor <;>
      simp [completeRecord, hp, NextcladeResultPayload.analysisResultField]
  | failure e =>
    constructor <;>
      simp [completeRecord, hp, NextcladeResultPayload.analysisResultField]

theorem step_preserves_recordsOk {a : ReducerAction} {s s' : AlgorithmState}
    (hs : RecordsOk s) (h : step a s = some s') : RecordsOk s' := by
  cases a
  case addParsedSequence i n =>
    simp only [step, Option.some.injEq] at h
    subst h
    intro rec hmem
    have hmem2 : some rec ∈ writeAt s.results i (some (freshRecord i n)) := hmem
    rcases mem_writeAt hmem2 with h1 | h1 | h1
    · exact hs rec h1
    · injection h1 with h2
      subst h2
      exact recordInvariant_fresh i n
    · cases h1
  case addNextcladeResult p =>
    cases hg : s.results[p.index]?.getD none with
    | none => simp [step, List.getD_eq_getElem?_getD, hg] at h
    | some rec0 =>
      simp only [step, List.getD_eq_getElem?_getD, hg, Option.some.injEq] at h
      subst h
      intro rec hmem
      have hmem2 : some rec ∈ s.results.set p.index (some (completeRecord rec0 p)) := hmem
      rcases List.mem_or_eq_of_mem_set hmem2 with h1 | h1
      · exact hs rec h1
      · injection h1 with h2
        subst h2
        exact recordInvariant_complete rec0 p
  case resultsSortTrigger sorting =>
    simp only [step, Option.some.injEq] at h
    subst h
    intro rec hmem
    have hmem2 : some rec ∈ sortResults s.results sorting := hmem
    exact hs rec (mem_insortLe hmem2)
  case algorithmRunStarted =>
    simp only [step, Option.some.injEq] at h
    subst h
    intro rec hmem
    have hmem2 : some rec ∈ ([] : List (Option SequenceRecord)) := hmem
    cases hmem2
  all_goals
    simp only [step, Option.some.injEq] at h
  all_goals
    subst h
  all_goals
    intro rec hmem
  all_goals
    exact hs rec hmem

theorem stepFold_preserves_recordsOk {acts : List ReducerAction}
    {s s' : AlgorithmState} (hs : RecordsOk s)
    (h : stepFold acts s = some s') : RecordsOk s' := by
  induction acts generalizing s with
  | nil =>
    simp only [stepFold, Option.some.injEq] at h
    subst h
    exact hs
  | cons a rest ih =>
    simp only [stepFold] at h
    cases hstep : step a s with
    | none => rw [hstep] at h; cases h
    | some s1 =>
      rw [hstep] at h
      simp only [Option.some_bind] at h
      exact ih (step_preserves_recordsOk hs hstep) h

theorem default_recordsOk : RecordsOk algorithmDefaultState := by
  intro rec h
  cases h

/-- C2: in every state reachable through the reducer's actions, every
record of the store has its result populated iff its status is done, and a
non-empty error list iff its status is failed. -/
theorem C2_record_result_error_invariant (s : AlgorithmState)
    (h : ReachableState s) (rec : SequenceRecord)
    (hmem : some rec ∈ s.results) :
    (rec.result.isSome ↔ rec.status = .done) ∧
    (rec.errors ≠ [] ↔ rec.status = .failed) := by
  obtain ⟨acts, hacts⟩ := h
  exact stepFold_preserves_recordsOk default_recordsOk hacts rec hmem

/-- The concrete action list behind the C2 witness state: reset, parse one
sequence, complete it successfully. -/
def c2Acts : List ReducerAction :=
  [.algorithmRunStarted, .addParsedSequence 0 "s1", .addNextcladeResult samplePayload]

/-- The C2 witness state. -/
def c2State : AlgorithmState :=
  (stepFold c2Acts algorithmDefaultState).getD algorithmDefaultState

/-- The completed record held by the C2 witness state. -/
def c2Rec : SequenceRecord := completeRecord (freshRecord 0 "s1") samplePayload

/-- C2 witness: the record invariant instantiated at the record of a
concrete reachable state. -/
theorem C2_record_result_error_invariant_witness :
    (c2Rec.result.isSome ↔ c2Rec.status = .done) ∧
    (c2Rec.errors ≠ [] ↔ c2Rec.status = .failed) :=
  C2_record_result_error_invariant c2State ⟨c2Acts, rfl⟩ c2Rec (by decide)

theorem writeAt_append {s : List (Option SequenceRecord)} {x : Option SequenceRecord} :
    writeAt s s.length x = s ++ [x] := by
  unfold writeAt
  simp

theorem parse_fold (names : List String) :
    ∀ (k : Nat) (s : AlgorithmState), s.results.length = k →
    ∃ s', stepFold ((List.enumFrom k names).map
        (fun q => ReducerAction.addParsedSequence q.1 q.2)) s = some s' ∧
      s'.results = s.results ++ (List.enumFrom k names).map
        (fun q => some (freshRecord q.1 q.2)) := by
  induction names with
  | nil =>
    intro k s hk
    exact ⟨s, rfl, by simp⟩
  | cons n ns ih =>
    intro k s hk
    have hw : writeAt s.results k (some (freshRecord k n)) =
        s.results ++ [some (freshRecord k n)] := by
      rw [← hk]
      exact writeAt_append
    obtain ⟨s', hfold, hres⟩ := ih (k + 1)
      { s with
        results := writeAt s.results k (some (freshRecord k n))
        resultsFiltered :=
          runFilters (writeAt s.results k (some (freshRecord k n))) s.filters }
      (by simp [hw, hk])
    refine ⟨s', ?_, ?_⟩
    · simp only [List.enumFrom, List.map_cons, stepFold, step, Option.some_bind]
      exact hfold
    · rw [hres]
      simp [hw, List.enumFrom]

/-- The action sequence that resets the store and then registers the given
names in order: `algorithmRunAsync.started` followed by one
`addParsedSequence` per name at its position. -/
def initActs (names : List String) : List ReducerAction :=
  ReducerAction.algorithmRunStarted ::
    (names.enum.map fun q => ReducerAction.addParsedSequence q.1 q.2)

/-- C4: from any state, resetting the store and then adding the M parsed
names in order always succeeds and yields a collection of exactly M
records where the record at position i is the fresh queued record for
index i and the i-th name — id = i, status queued, no result, empty
warnings and errors — with insertion order preserved. -/
theorem C4_reset_then_initialize (s : AlgorithmState) (names : List String) :
    ∃ s', stepFold (initActs names) s = some s' ∧
      s'.results = names.enum.map (fun q => some (freshRecord q.1 q.2)) ∧
      s'.results.length = names.length := by
  obtain ⟨s', h1, h2⟩ := parse_fold names 0
    { s with
      status := .idle
      isDirty := false
      results := []
      resultsFiltered := []
      treeStr := none
      errors := [] } rfl
  refine ⟨s', ?_, ?_, ?_⟩
  · simp only [initActs, stepFold, step, Option.some_bind, List.enum]
    exact h1
  · rw [h2]
    simp [List.enum]
  · rw [h2]
    simp [List.enum, List.enumFrom_length]

/-- Total core of the completion handler: the state transformation
performed by `addNextcladeResult` when the indexed record exists, and the
identity when it does not (the reducer itself throws in that case; the
total core is only used to reason about successful runs). -/
def applyOk (p : NextcladeResultPayload) (s : AlgorithmState) : AlgorithmState :=
  match s.results.getD p.index none with
  | none => s
  | some rec =>
    let results := s.results.set p.index (some (completeRecord rec p))
    { s with results := results, resultsFiltered := runFilters results s.filters }

theorem getElemD_set_of_ne {α : Type} {i j : Nat} (h : i ≠ j) (l : List α) (x d : α) :
    ((l.set i x)[j]?).getD d = (l[j]?).getD d := by
  rw [List.getElem?_set_ne h]

theorem getElemD_set_self {α : Type} {i : Nat} {l : List α} (h : i < l.length) (x d : α) :
    ((l.set i x)[i]?).getD d = x := by
  rw [List.getElem?_set_self h]
  rfl

theorem step_addNextclade_eq_applyOk {p : NextcladeResultPayload}
    {s : AlgorithmState} (h : ((s.results[p.index]?).getD none).isSome) :
    step (.addNextcladeResult p) s = some (applyOk p s) := by
  cases hg : (s.results[p.index]?).getD none with
  | none =>
    rw [hg] at h
    cases h
  | some rec =>
    simp [step, applyOk, List.getD_eq_getElem?_getD, hg]

/-- A store of exactly N records with no holes. -/
def FullStore (N : Nat) (s : AlgorithmState) : Prop :=
  s.results.length = N ∧ ∀ j, j < N → ((s.results[j]?).getD none).isSome

theorem applyOk_full {N : Nat} {p : NextcladeResultPayload}
    {s : AlgorithmState} (hf : FullStore N s) : FullStore N (applyOk p s) := by
  obtain ⟨hlen, hful⟩ := hf
  cases hg : (s.results[p.index]?).getD none with
  | none =>
    simp only [applyOk, List.getD_eq_getElem?_getD, hg]
    exact ⟨hlen, hful⟩
  | some rec =>
    constructor
    · simp only [applyOk, List.getD_eq_getElem?_getD, hg]
      simp [hlen]
    · intro j hj
      simp only [applyOk, List.getD_eq_getElem?_getD, hg]
      by_cases hji : j = p.index
      · subst hji
        have hjlen : p.index < s.results.length := by rw [hlen]; exact hj
        rw [getElemD_set_self hjlen]
        rfl
      · rw [getElemD_set_of_ne (fun hEq => hji hEq.symm) _ _ _]
        exact hful j hj

theorem applyOk_comm {p q : NextcladeResultPayload}
    (hne : p.index ≠ q.index) (s : AlgorithmState) :
    applyOk q (applyOk p s) = applyOk p (applyOk q s) := by
  cases hgp : (s.results[p.index]?).getD none with
  | none =>
    cases hgq : (s.results[q.index]?).getD none with
    | none =>
      simp only [applyOk, List.getD_eq_getElem?_getD, hgp, hgq]
    | some rq =>
      simp only [applyOk, List.getD_eq_getElem?_getD, hgq]
      simp only [applyOk, List.getD_eq_getElem?_getD,
        getElemD_set_of_ne (Ne.symm hne), hgp, hgq]
  | some rp =>
    cases hgq : (s.results[q.index]?).getD none with
    | none =>
      simp only [applyOk, List.getD_eq_getElem?_getD, hgp]
      simp only [applyOk, List.getD_eq_getElem?_getD,
        getElemD_set_of_ne hne, hgp, hgq]
    | some rq =>
      simp only [applyOk, List.getD_eq_getElem?_getD, hgp, hgq,
        getElemD_set_of_ne hne, getElemD_set_of_ne (Ne.symm hne)]
      rw [List.set_comm _ _ _ hne]

/-- Sequential application of the total completion core. -/
def foldOk (ps : List NextcladeResultPayload) (s : AlgorithmState) : AlgorithmState :=
  ps.foldl (fun st p => applyOk p st) s

theorem stepFold_eq_foldOk {N : Nat} (ps : List NextcladeResultPayload)
    (s : AlgorithmState) (hf : FullStore N s)
    (hidx : ∀ p ∈ ps, p.index < N) :
    stepFold (ps.map .addNextcladeResult) s = some (foldOk ps s) := by
  induction ps generalizing s with
  | nil => rfl
  | cons p rest ih =>
    have hip : p.index < N := hidx p (List.mem_cons_self p rest)
    have hsome : ((s.results[p.index]?).getD none).isSome := hf.2 p.index hip
    simp only [List.map_cons, stepFold]
    rw [step_addNextclade_eq_applyOk hsome, Option.some_bind]
    exact ih (applyOk p s) (applyOk_full hf)
      (fun q hq => hidx q (List.mem_cons_of_mem _ hq))

theorem foldOk_perm {ps1 ps2 : List NextcladeResultPayload}
    (hperm : ps1.Perm ps2) (hnd : (ps1.map (fun p => p.index)).Nodup)
    (s : AlgorithmState) : foldOk ps1 s = foldOk ps2 s := by
  refine hperm.foldl_eq' ?_ s
  intro x hx y hy z
  by_cases hxy : x = y
  · subst hxy
    rfl
  · have hne : x.index ≠ y.index :=
      fun hEq => hxy (List.inj_on_of_nodup_map hnd hx hy hEq)
    exact applyOk_comm hne z

/-- C3: from a hole-free collection of N records, applying the N
completions of a payload list whose indices are exactly 0..N-1 succeeds,
and any permutation of that list drives the reducer to the same final
state — in particular the same final results collection and the same
final filtered results. -/
theorem C3_completion_order_irrelevant (s : AlgorithmState) (N : Nat)
    (ps1 ps2 : List NextcladeResultPayload)
    (hlen : s.results.length = N)
    (hful : ∀ j, j < N → ((s.results[j]?).getD none).isSome)
    (hidx : (ps1.map (fun p => p.index)).Perm (List.range N))
    (hperm : ps1.Perm ps2) :
    stepFold (ps1.map .addNextcladeResult) s =
      stepFold (ps2.map .addNextcladeResult) s ∧
    (stepFold (ps1.map .addNextcladeResult) s).isSome := by
  have hf : FullStore N s := ⟨hlen, hful⟩
  have hidx1 : ∀ p ∈ ps1, p.index < N := by
    intro p hp
    have h2 : p.index ∈ List.range N :=
      hidx.mem_iff.mp (List.mem_map_of_mem _ hp)
    simpa [List.mem_range] using h2
  have hidx2 : ∀ p ∈ ps2, p.index < N :=
    fun p hp => hidx1 p (hperm.mem_iff.mpr hp)
  have hnd : (ps1.map (fun p => p.index)).Nodup :=
    hidx.nodup_iff.mpr (List.nodup_range N)
  rw [stepFold_eq_foldOk ps1 s hf hidx1, stepFold_eq_foldOk ps2 s hf hidx2]
  exact ⟨congrArg some (foldOk_perm hperm hnd s), rfl⟩

/-- A hole-free two-record store for the C3 witness. -/
def c3State : AlgorithmState :=
  { algorithmDefaultState with
    results := [some (freshRecord 0 "a"), some (freshRecord 1 "b")] }

/-- A failure completion payload for index 1. -/
def c3Pay1 : NextcladeResultPayload :=
  { index := 1, seqName := "b", warnings := { global := [], inGenes := [] }
    outcome := .failure "bad" }

/-- C3 witness: completing indices 0 and 1 of the two-record store in
either order drives the reducer to the same final state. -/
theorem C3_completion_order_irrelevant_witness :
    stepFold ([samplePayload, c3Pay1].map .addNextcladeResult) c3State =
      stepFold ([c3Pay1, samplePayload].map .addNextcladeResult) c3State ∧
    (stepFold ([samplePayload, c3Pay1].map .addNextcladeResult) c3State).isSome :=
  C3_completion_order_irrelevant c3State 2 [samplePayload, c3Pay1]
    [c3Pay1, samplePayload] (by decide) (by decide) (by decide) (by decide)
